import Mathlib

/-!
Verification of the mma-mcp server specification against its source.

The development shallowly embeds the pure logic of the repository:

* `src/mathematica/formatter.ts` — output truncation (`truncateOutput`);
* `src/middleware/auth.ts` — bearer-token extraction and the timing-safe
  comparison (`extractBearerToken`, `timingSafeEqual`, `validateBearerToken`);
* `src/server/index.ts` — the health state machine (`getServerHealthStatus`)
  and the `/health` handler's `failedChecks` list from
  `src/server/transports/http.ts`;
* `src/tools/execute-mathematica.ts` — input validation and timeout clamping
  (`zodParseExecuteInput`, `handleExecuteMathematica`);
* `src/mathematica/executor.ts` — the error classification performed by the
  `catch` block of `executeWolframScript` (`classifyCaughtError`) and the
  effect sequence of its timer-win path (`executorTimerWinTrace`).

Strings are modelled as `List Char` where character-level reasoning is
needed and as `String` elsewhere.
-/

namespace MmaMcp

/-! ## Output truncation (formatter.ts, `truncateOutput`) -/

/-- Fixed head of the truncation notice appended by `truncateOutput`
(formatter.ts line 391, the text before the interpolated length). -/
def noticeHead : List Char := "\n\n... [Output truncated. Full length: ".toList

/-- Fixed tail of the truncation notice (the text after the length). -/
def noticeTail : List Char := " characters]".toList

/-- Truncation notice for an original output of length `n`:
`"\n\n... [Output truncated. Full length: " + n + " characters]"`. -/
def truncationNotice (n : Nat) : List Char :=
  noticeHead ++ (Nat.repr n).toList ++ noticeTail

/-- Embedding of `truncateOutput` (formatter.ts lines 385–394): if the
output is within `maxLength` it is returned unchanged, otherwise the first
`maxLength` characters are kept and the truncation notice is appended. -/
def truncateOutput (output : List Char) (maxLength : Nat) : List Char :=
  if output.length ≤ maxLength then output
  else output.take maxLength ++ truncationNotice output.length

lemma truncationNotice_length_pos (n : Nat) : 0 < (truncationNotice n).length := by
  have h : 0 < noticeHead.length := by decide
  simp only [truncationNotice, List.length_append]
  omega

lemma truncateOutput_of_le {o : List Char} {N : Nat} (h : o.length ≤ N) :
    truncateOutput o N = o := by
  simp [truncateOutput, h]

lemma truncateOutput_of_gt {o : List Char} {N : Nat} (h : N < o.length) :
    truncateOutput o N = o.take N ++ truncationNotice o.length := by
  simp [truncateOutput, Nat.not_le.mpr h]

lemma truncateOutput_length_of_gt {o : List Char} {N : Nat} (h : N < o.length) :
    (truncateOutput o N).length = N + (truncationNotice o.length).length := by
  rw [truncateOutput_of_gt h]
  simp [List.length_append, List.length_take]
  omega

/-- C6: `truncateOutput` returns the output unchanged when its length is at
most the limit `N`; otherwise it returns the first `N` characters followed
by the truncation notice, which carries the decimal rendering of the
original length, and the overall result length is at most `N` plus the
notice length (in fact exactly that). -/
theorem truncateOutput_spec (o : List Char) (N : Nat) :
    (o.length ≤ N → truncateOutput o N = o) ∧
    (N < o.length →
      truncateOutput o N
        = o.take N ++ (noticeHead ++ (Nat.repr o.length).toList ++ noticeTail) ∧
      (truncateOutput o N).length ≤ N + (truncationNotice o.length).length) := by
  refine ⟨fun h => truncateOutput_of_le h, fun h => ⟨?_, ?_⟩⟩
  · rw [truncateOutput_of_gt h, truncationNotice]
  · exact Nat.le_of_eq (truncateOutput_length_of_gt h)

/-- Witness for C6 at the concrete output `"abcdef"` with limit `3`. -/
theorem truncateOutput_spec_witness :
    (("ab".toList.length ≤ 5) ∧ truncateOutput "ab".toList 5 = "ab".toList) ∧
    ((3 < "abcdef".toList.length) ∧
      truncateOutput "abcdef".toList 3
        = "abcdef".toList.take 3
            ++ (noticeHead ++ (Nat.repr "abcdef".toList.length).toList ++ noticeTail)) :=
  ⟨⟨by decide, (truncateOutput_spec "ab".toList 5).1 (by decide)⟩,
   ⟨by decide, ((truncateOutput_spec "abcdef".toList 3).2 (by decide)).1⟩⟩

/-- C5 counterexample: truncation is not idempotent.  For the output
`"abcdef"` and limit `3`, the first application appends a notice reporting
length 6; the result (length `3 + 51 > 3`) is truncated again by the second
application, whose notice reports length 54, so the two results differ. -/
theorem truncateOutput_not_idempotent :
    truncateOutput (truncateOutput "abcdef".toList 3) 3
      ≠ truncateOutput "abcdef".toList 3 := by
  decide

/-- C5 amended: `truncateOutput` is a pure (hence deterministic) function,
and a second application is a no-op exactly on outputs that were not
truncated; when `N < len(output)` the once-truncated result is itself
longer than `N`, so the second application keeps the same first `N`
characters but replaces the notice with one reporting the length of the
once-truncated string, `N + len(notice(len(output)))`. -/
theorem truncateOutput_second_application (o : List Char) (N : Nat) :
    (o.length ≤ N → truncateOutput (truncateOutput o N) N = truncateOutput o N) ∧
    (N < o.length →
      truncateOutput (truncateOutput o N) N
        = o.take N ++ truncationNotice (N + (truncationNotice o.length).length)) := by
  constructor
  · intro h
    rw [truncateOutput_of_le h, truncateOutput_of_le h]
  · intro h
    have hlen : (truncateOutput o N).length = N + (truncationNotice o.length).length :=
      truncateOutput_length_of_gt h
    have hgt : N < (truncateOutput o N).length := by
      have := truncationNotice_length_pos o.length
      omega
    rw [truncateOutput_of_gt hgt, hlen, truncateOutput_of_gt h]
    have htake : (o.take N ++ truncationNotice o.length).take N = o.take N := by
      have hN : (o.take N).length = N := by
        simp [List.length_take]
        omega
      rw [List.take_append_eq_append_take, hN]
      simp [List.take_take]
    rw [htake]

/-- Witness for C5's amended theorem at the concrete output `"abcdef"`
with limit `3` (both the untruncated and the truncated branch). -/
theorem truncateOutput_second_application_witness :
    (("ab".toList.length ≤ 5) ∧
      truncateOutput (truncateOutput "ab".toList 5) 5 = truncateOutput "ab".toList 5) ∧
    ((3 < "abcdef".toList.length) ∧
      truncateOutput (truncateOutput "abcdef".toList 3) 3
        = "abcdef".toList.take 3
            ++ truncationNotice (3 + (truncationNotice "abcdef".toList.length).length)) :=
  ⟨⟨by decide, (truncateOutput_second_application "ab".toList 5).1 (by decide)⟩,
   ⟨by decide, (truncateOutput_second_application "abcdef".toList 3).2 (by decide)⟩⟩

/-! ## Bearer-token authentication (middleware/auth.ts) -/

/-- Whitespace predicate used by the embedding of JavaScript's
`String.prototype.trim` (auth.ts line 416).  The ASCII whitespace
characters are covered; JS additionally strips Unicode space separators,
which do not occur in any input considered here. -/
def jsWhitespace (c : Char) : Bool :=
  c == ' ' || c == '\t' || c == '\n' || c == '\r' || c == '\x0b' || c == '\x0c'

/-- Embedding of JavaScript's `trim`: drop whitespace from both ends. -/
def trimChars (l : List Char) : List Char :=
  ((l.dropWhile jsWhitespace).reverse.dropWhile jsWhitespace).reverse

/-- The literal `'Bearer '` the Authorization header must start with
(auth.ts line 409). -/
def bearerTag : List Char := "Bearer ".toList

/-- Embedding of `extractBearerToken` (auth.ts lines 401–419): `none` for a
missing header or one not starting with `'Bearer '`; otherwise the rest of
the header is trimmed, and an all-whitespace token also yields `none`. -/
def extractBearerToken (authHeader : Option (List Char)) : Option (List Char) :=
  match authHeader with
  | none => none
  | some h =>
    if h.take bearerTag.length == bearerTag then
      let token := trimChars (h.drop bearerTag.length)
      if 0 < token.length then some token else none
    else none

/-- Comparison loop of `timingSafeEqual` (auth.ts lines 379–381 and
387–391): OR-accumulate the XOR of the character codes pairwise, returning
the accumulator together with the number of iterations performed.  Both
call sites pass lists of equal length, so the iteration count is the
length of the second (expected-key) list. -/
def cmpLoop : List Char → List Char → Nat → Nat × Nat
  | x :: xs, y :: ys, acc =>
    let r := cmpLoop xs ys (acc ||| (x.toNat ^^^ y.toNat))
    (r.1, r.2 + 1)
  | _, _, acc => (acc, 0)

/-- Embedding of `timingSafeEqual` (auth.ts lines 372–394), instrumented
with the number of loop iterations performed.  On a length mismatch the
source runs the comparison loop against a dummy string `'x'.repeat(b.length)`
with the accumulator initialised to 1 and returns `false` regardless; on
equal lengths it returns whether the accumulated OR of XORs is zero. -/
def timingSafeEqualRun (a b : List Char) : Bool × Nat :=
  if a.length ≠ b.length then
    let dummy := List.replicate b.length 'x'
    let r := cmpLoop dummy b 1
    (false, r.2)
  else
    let r := cmpLoop a b 0
    (r.1 == 0, r.2)

/-- Boolean result of `timingSafeEqual`. -/
def timingSafeEqual (a b : List Char) : Bool :=
  (timingSafeEqualRun a b).1

/-- Embedding of `validateBearerToken` (auth.ts lines 427–455): with no
configured key (or an empty one) every request passes; otherwise the
extracted token is compared with the key by `timingSafeEqual`. -/
def validateBearerToken (authHeader : Option (List Char))
    (expectedKey : Option (List Char)) : Bool :=
  match expectedKey with
  | none => true
  | some key =>
    if key.length = 0 then true
    else
      match extractBearerToken authHeader with
      | none => false
      | some token => timingSafeEqual token key

lemma cmpLoop_iterations (a b : List Char) (acc : Nat) :
    (cmpLoop a b acc).2 = min a.length b.length := by
  induction a generalizing b acc with
  | nil => cases b <;> simp [cmpLoop]
  | cons x xs ih =>
    cases b with
    | nil => simp [cmpLoop]
    | cons y ys =>
      simp [cmpLoop, ih]
      omega

lemma or_eq_zero_pair (m n : Nat) : m ||| n = 0 ↔ m = 0 ∧ n = 0 := by
  constructor
  · intro h
    constructor
    · apply Nat.eq_of_testBit_eq
      intro i
      have hb := congrArg (fun x => Nat.testBit x i) h
      simp only [Nat.testBit_or, Nat.zero_testBit, Bool.or_eq_false_iff] at hb
      simp [hb.1]
    · apply Nat.eq_of_testBit_eq
      intro i
      have hb := congrArg (fun x => Nat.testBit x i) h
      simp only [Nat.testBit_or, Nat.zero_testBit, Bool.or_eq_false_iff] at hb
      simp [hb.2]
  · rintro ⟨h1, h2⟩
    simp [h1, h2]

lemma cmpLoop_fst_eq_zero (a b : List Char) (acc : Nat)
    (h : a.length = b.length) :
    ((cmpLoop a b acc).1 = 0 ↔ acc = 0 ∧ a = b) := by
  induction a generalizing b acc with
  | nil =>
    cases b with
    | nil => simp [cmpLoop]
    | cons y ys => simp at h
  | cons x xs ih =>
    cases b with
    | nil => simp at h
    | cons y ys =>
      simp only [List.length_cons, Nat.succ.injEq] at h
      simp only [cmpLoop]
      rw [ih ys _ h]
      constructor
      · rintro ⟨hor, hxs⟩
        have hacc : acc = 0 ∧ x.toNat ^^^ y.toNat = 0 :=
          (or_eq_zero_pair acc (x.toNat ^^^ y.toNat)).mp hor
        have hxy : x = y := by
          have := Nat.xor_eq_zero.mp hacc.2
          exact Char.eq_of_val_eq (by
            have hx : x.val.toNat = y.val.toNat := this
            exact UInt32.toNat.inj hx)
        exact ⟨hacc.1, by simp [hxy, hxs]⟩
      · rintro ⟨hacc, heq⟩
        have hx : x = y := (List.cons.injEq _ _ _ _ ▸ heq).1
        have hxs : xs = ys := (List.cons.injEq _ _ _ _ ▸ heq).2
        refine ⟨?_, hxs⟩
        simp [hacc, hx, Nat.xor_self]

lemma timingSafeEqual_iff (a b : List Char) :
    timingSafeEqual a b = true ↔ a = b := by
  unfold timingSafeEqual timingSafeEqualRun
  by_cases h : a.length = b.length
  · simp only [h, ne_eq, not_true_eq_false, if_false]
    rw [beq_iff_eq, cmpLoop_fst_eq_zero a b 0 h]
    simp
  · simp only [ne_eq, h, not_false_eq_true, if_true]
    constructor
    · intro hf
      exact absurd hf (by simp)
    · intro heq
      exact absurd (congrArg List.length heq) h

/-- C9: the comparison loop of `timingSafeEqual` always performs exactly
`len(expectedKey)` iterations, whether or not the two lengths match (on a
mismatch a dummy of the expected key's length is compared), and a length
mismatch still returns `false`. -/
theorem timingSafeEqual_iterations (a b : List Char) :
    (timingSafeEqualRun a b).2 = b.length ∧
    (a.length ≠ b.length → timingSafeEqual a b = false) := by
  constructor
  · unfold timingSafeEqualRun
    by_cases h : a.length = b.length
    · simp [h, cmpLoop_iterations]
    · simp [h, cmpLoop_iterations]
  · intro h
    unfold timingSafeEqual timingSafeEqualRun
    simp [h]

/-- Witness for C9 on the concrete token `"ab"` against the key `"xyz"`
(lengths differ: the loop still runs 3 iterations and returns `false`). -/
theorem timingSafeEqual_iterations_witness :
    (timingSafeEqualRun "ab".toList "xyz".toList).2 = "xyz".toList.length ∧
    ("ab".toList.length ≠ "xyz".toList.length) ∧
    timingSafeEqual "ab".toList "xyz".toList = false :=
  ⟨(timingSafeEqual_iterations "ab".toList "xyz".toList).1,
   by decide,
   (timingSafeEqual_iterations "ab".toList "xyz".toList).2 (by decide)⟩

/-- C3 counterexample: the token is trimmed after the `'Bearer '` marker is
removed.  With expected key `"abc"` and header `"Bearer abc "` (trailing
space) the raw token `"abc "` differs from the key, yet validation
succeeds, contradicting "no trimming beyond removing the prefix". -/
theorem validateBearerToken_trims_token :
    validateBearerToken (some "Bearer abc ".toList) (some "abc".toList) = true ∧
    ("Bearer abc ".toList).drop "Bearer ".toList.length ≠ "abc".toList := by
  constructor
  · decide
  · decide

/-- C3 amended: validation accepts every request when the key is unset or
empty; for a fixed non-empty key and a present header, validation succeeds
iff the header starts with `'Bearer '` and the rest of the header, after
JavaScript `trim`, equals the key exactly (case-sensitively); a missing
header is always rejected. -/
theorem validateBearerToken_spec (hdr : Option (List Char)) (h k : List Char)
    (hk : k ≠ []) :
    validateBearerToken hdr none = true ∧
    validateBearerToken hdr (some []) = true ∧
    validateBearerToken none (some k) = false ∧
    (validateBearerToken (some h) (some k) = true ↔
      h.take bearerTag.length = bearerTag ∧
      trimChars (h.drop bearerTag.length) = k) := by
  have hklen : ¬ k.length = 0 := by
    simpa using hk
  refine ⟨rfl, rfl, by simp [validateBearerToken, hklen, extractBearerToken], ?_⟩
  unfold validateBearerToken extractBearerToken
  simp only [hklen, if_false]
  by_cases hpre : h.take bearerTag.length == bearerTag
  · simp only [hpre, if_true]
    by_cases hlen : 0 < (trimChars (h.drop bearerTag.length)).length
    · simp only [hlen, if_true]
      rw [timingSafeEqual_iff]
      constructor
      · intro heq
        exact ⟨beq_iff_eq.mp hpre, heq⟩
      · intro hc
        exact hc.2
    · simp only [hlen, if_false]
      constructor
      · intro hfalse
        exact absurd hfalse (by simp)
      · rintro ⟨-, htrim⟩
        exact absurd (htrim ▸ hlen) (by simp [List.length_pos, hk])
  · simp only [hpre, if_false]
    constructor
    · intro hfalse
      exact absurd hfalse (by simp)
    · rintro ⟨hc, -⟩
      exact absurd (beq_iff_eq.mpr hc) (by simpa using hpre)

/-- Witness for C3's amended theorem at the header `"Bearer abc"` and the
non-empty key `"abc"`. -/
theorem validateBearerToken_spec_witness :
    ("abc".toList ≠ ([] : List Char)) ∧
    (validateBearerToken (some "Bearer abc".toList) (some "abc".toList) = true ↔
      ("Bearer abc".toList).take bearerTag.length = bearerTag ∧
      trimChars (("Bearer abc".toList).drop bearerTag.length) = "abc".toList) :=
  ⟨by decide,
   (validateBearerToken_spec (some "Bearer abc".toList) "Bearer abc".toList
      "abc".toList (by decide)).2.2.2⟩

/-! ## Health state machine (server/index.ts and the /health handler) -/

/-- Mutable server state tracked by the orchestrator (server/index.ts
lines 26–42): the four readiness booleans plus the recorded
initialization error. -/
structure ServerState where
  wolframScriptAvailable : Bool
  wolframKernelInitialized : Bool
  mcpServerConnected : Bool
  transportConnected : Bool
  initializationError : Option String

/-- Health status values reported by `getServerHealthStatus`. -/
inductive HealthStatus where
  | ok
  | initializing
  | error
deriving DecidableEq, Repr

/-- Embedding of `getServerHealthStatus` (server/index.ts lines 204–250):
`ok` when all four checks hold and no error is recorded; `initializing`
when no check holds yet and no error is recorded; `error` otherwise. -/
def getServerHealthStatus (s : ServerState) : HealthStatus :=
  let allHealthy := s.wolframScriptAvailable && s.wolframKernelInitialized &&
    s.mcpServerConnected && s.transportConnected && s.initializationError.isNone
  let anyInitialized := s.wolframScriptAvailable || s.wolframKernelInitialized ||
    s.mcpServerConnected || s.transportConnected
  if allHealthy then HealthStatus.ok
  else if !anyInitialized && s.initializationError.isNone then HealthStatus.initializing
  else HealthStatus.error

/-- Embedding of the `failedChecks` construction of the `/health` handler
(transports/http.ts lines 369–386): when the status is not `ok`, one fixed
message per failing check is collected, and the field is attached to the
response only when that list is non-empty (`none` models the absent
field). -/
def healthFailedChecks (s : ServerState) : Option (List String) :=
  if getServerHealthStatus s ≠ HealthStatus.ok then
    let failed :=
      (if !s.wolframScriptAvailable then ["WolframScript not available"] else []) ++
      (if !s.wolframKernelInitialized then ["Wolfram Kernel not initialized"] else []) ++
      (if !s.mcpServerConnected then ["MCP server not connected"] else []) ++
      (if !s.transportConnected then ["Transport not connected"] else [])
    if 0 < failed.length then some failed else none
  else none

/-- Embedding of the HTTP status mapping of the `/health` handler
(transports/http.ts lines 337–344): `ok → 200`, anything else `→ 503`. -/
def healthHttpStatusCode (s : ServerState) : Nat :=
  match getServerHealthStatus s with
  | HealthStatus.ok => 200
  | HealthStatus.initializing => 503
  | HealthStatus.error => 503

/-- C4: the health status is a deterministic function of the four check
booleans and the error field — all checks false with no error gives
`initializing`, all checks true with no error gives `ok`, every other
combination gives `error` — and whenever the status is not `ok` the
`failedChecks` list contains exactly the fixed message of each check whose
boolean is false. -/
theorem health_status_spec (s : ServerState) :
    ((s.wolframScriptAvailable = false ∧ s.wolframKernelInitialized = false ∧
      s.mcpServerConnected = false ∧ s.transportConnected = false ∧
      s.initializationError = none) →
      getServerHealthStatus s = HealthStatus.initializing) ∧
    ((s.wolframScriptAvailable = true ∧ s.wolframKernelInitialized = true ∧
      s.mcpServerConnected = true ∧ s.transportConnected = true ∧
      s.initializationError = none) →
      getServerHealthStatus s = HealthStatus.ok) ∧
    ((¬ (s.wolframScriptAvailable = false ∧ s.wolframKernelInitialized = false ∧
        s.mcpServerConnected = false ∧ s.transportConnected = false ∧
        s.initializationError = none)) →
      (¬ (s.wolframScriptAvailable = true ∧ s.wolframKernelInitialized = true ∧
        s.mcpServerConnected = true ∧ s.transportConnected = true ∧
        s.initializationError = none)) →
      getServerHealthStatus s = HealthStatus.error) ∧
    (getServerHealthStatus s ≠ HealthStatus.ok →
      (("WolframScript not available" ∈ (healthFailedChecks s).getD []) ↔
        s.wolframScriptAvailable = false) ∧
      (("Wolfram Kernel not initialized" ∈ (healthFailedChecks s).getD []) ↔
        s.wolframKernelInitialized = false) ∧
      (("MCP server not connected" ∈ (healthFailedChecks s).getD []) ↔
        s.mcpServerConnected = false) ∧
      (("Transport not connected" ∈ (healthFailedChecks s).getD []) ↔
        s.transportConnected = false)) := by
  obtain ⟨a, b, c, d, e⟩ := s
  cases a <;> cases b <;> cases c <;> cases d <;> cases e <;>
    simp [getServerHealthStatus, healthFailedChecks]

/-- Witness for C4 at two concrete states: the fresh state (all checks
false, no error) is `initializing`, and its `failedChecks` list contains
the transport message. -/
theorem health_status_spec_witness :
    getServerHealthStatus ⟨false, false, false, false, none⟩ = HealthStatus.initializing ∧
    (("Transport not connected" ∈
        (healthFailedChecks ⟨false, false, false, false, none⟩).getD []) ↔
      (false : Bool) = false) :=
  ⟨(health_status_spec ⟨false, false, false, false, none⟩).1
      ⟨rfl, rfl, rfl, rfl, rfl⟩,
   ((health_status_spec ⟨false, false, false, false, none⟩).2.2.2
      (by decide)).2.2.2⟩

/-! ## Tool dispatch: input validation and timeout clamping
(tools/execute-mathematica.ts, config/schema.ts, utils/errors.ts) -/

/-- Output formats accepted by the `execute_mathematica` tool
(`OutputFormatSchema` in config/schema.ts). -/
inductive OutputFormat where
  | text
  | latex
  | mathematica
deriving DecidableEq, Repr

/-- Server configuration fields relevant to dispatch (`EnvSchema` in
config/schema.ts); timeouts are in seconds. -/
structure EnvConfig where
  WOLFRAM_SCRIPT_PATH : String
  DEFAULT_TIMEOUT : Int
  MAX_TIMEOUT : Int

/-- Raw (pre-validation) tool-call arguments: each declared field either
absent or present with a value of its JSON type. -/
structure RawArgs where
  code : Option String
  format : Option String
  timeout : Option Int
  path : Option String

/-- Validated input of `execute_mathematica`
(`ExecuteMathematicaInputSchema` in config/schema.ts). -/
structure ExecInput where
  code : String
  format : OutputFormat
  timeout : Option Int
  path : Option String
deriving DecidableEq, Repr

/-- Parse the `format` field: absent defaults to `text`; any string other
than the three enum values is a validation failure. -/
def parseFormatField : Option String → Option OutputFormat
  | none => some OutputFormat.text
  | some s =>
    if s = "text" then some OutputFormat.text
    else if s = "latex" then some OutputFormat.latex
    else if s = "mathematica" then some OutputFormat.mathematica
    else none

/-- Embedding of `ExecuteMathematicaInputSchema.parse`: `code` is required
and non-empty, `format` must be one of the three enum values (defaulting
to `text`), `timeout`, when present, must be an integer in `[1, 86400]`. -/
def zodParseExecuteInput (args : RawArgs) : Except String ExecInput :=
  match args.code with
  | none => Except.error "code: Required"
  | some c =>
    if c.length < 1 then
      Except.error "code: String must contain at least 1 character(s)"
    else
      match parseFormatField args.format with
      | none => Except.error "format: Invalid enum value"
      | some f =>
        match args.timeout with
        | some t =>
          if t < 1 then
            Except.error "timeout: Number must be greater than or equal to 1"
          else if t > 86400 then
            Except.error "timeout: Number must be less than or equal to 86400"
          else Except.ok ⟨c, f, some t, args.path⟩
        | none => Except.ok ⟨c, f, none, args.path⟩

/-- Arguments of one `executeWolframScript` invocation — one OS subprocess
spawn (executor.ts line 93). -/
structure SpawnArgs where
  code : String
  timeout : Int
  format : OutputFormat
  path : Option String
  wolframPath : String
deriving DecidableEq, Repr

/-- Execution result (`ExecutionResultSchema` in config/schema.ts). -/
structure ExecutionResult where
  format : OutputFormat
  content : String
  executionTime : Option Nat
deriving DecidableEq, Repr

/-- Errors thrown inside the handler: the three `MathematicaError`
subclasses of utils/errors.ts plus the `ZodError` raised by schema
validation. -/
inductive ThrownError where
  | timeoutThrown (ms : Int)
  | executionThrown (message : String)
  | notFoundThrown (path : String)
  | validationThrown (message : String)
deriving DecidableEq, Repr

/-- Embedding of `formatErrorForMcp` (utils/errors.ts lines 131–160)
restricted to the error values that occur in the handler: the envelope
carries the error's class name and its message. -/
def formatErrorForMcp : ThrownError → String × String
  | ThrownError.timeoutThrown ms =>
    ("MathematicaTimeoutError", "Execution exceeded timeout of " ++ toString ms ++ "ms")
  | ThrownError.executionThrown m =>
    ("MathematicaExecutionError", "Execution failed: " ++ m)
  | ThrownError.notFoundThrown p =>
    ("WolframScriptNotFoundError",
      "WolframScript not found at path: " ++ p ++ ". Please ensure Mathematica is installed.")
  | ThrownError.validationThrown m => ("ZodError", m)

/-- Payload of a tool-call response: either the JSON of a successful
execution result or the JSON of a structured error envelope. -/
inductive ToolPayload where
  | resultJson (r : ExecutionResult)
  | errorJson (e : String × String)
deriving DecidableEq, Repr

/-- MCP tool-call result: payload plus the `isError` flag. -/
structure CallToolResult where
  payload : ToolPayload
  isError : Bool
deriving DecidableEq, Repr

/-- Embedding of `handleExecuteMathematica` (execute-mathematica.ts lines
135–204).  The runner (`executeWolframScript`) is abstracted as a function
from spawn arguments to a result or thrown error; the second component of
the return value records which subprocess spawns were performed, so that
"no subprocess is spawned" is expressible.  Validation failure, caught by
the surrounding `try`, yields the structured envelope with `isError` set
and an empty spawn list; a valid input spawns exactly once with the
clamped timeout `min(requested ?? DEFAULT_TIMEOUT, MAX_TIMEOUT)`. -/
def handleExecuteMathematica (run : SpawnArgs → Except ThrownError ExecutionResult)
    (args : RawArgs) (config : EnvConfig) : CallToolResult × List SpawnArgs :=
  match zodParseExecuteInput args with
  | Except.error msg =>
    (⟨ToolPayload.errorJson (formatErrorForMcp (ThrownError.validationThrown msg)), true⟩, [])
  | Except.ok input =>
    let timeout := min (input.timeout.getD config.DEFAULT_TIMEOUT) config.MAX_TIMEOUT
    let sp : SpawnArgs :=
      ⟨input.code, timeout, input.format, input.path, config.WOLFRAM_SCRIPT_PATH⟩
    match run sp with
    | Except.ok r => (⟨ToolPayload.resultJson r, false⟩, [sp])
    | Except.error e => (⟨ToolPayload.errorJson (formatErrorForMcp e), true⟩, [sp])

/-- C7: for every validated request, every subprocess spawned by the
handler runs with timeout `min(requestedTimeout ?? DEFAULT_TIMEOUT,
MAX_TIMEOUT)`; in particular never more than `MAX_TIMEOUT`. -/
theorem effective_timeout_clamped
    (run : SpawnArgs → Except ThrownError ExecutionResult)
    (args : RawArgs) (config : EnvConfig) (input : ExecInput)
    (h : zodParseExecuteInput args = Except.ok input) :
    ∀ sp ∈ (handleExecuteMathematica run args config).2,
      sp.timeout = min (input.timeout.getD config.DEFAULT_TIMEOUT) config.MAX_TIMEOUT ∧
      sp.timeout ≤ config.MAX_TIMEOUT := by
  intro sp hsp
  unfold handleExecuteMathematica at hsp
  rw [h] at hsp
  have hsp2 : sp = (⟨input.code,
      min (input.timeout.getD config.DEFAULT_TIMEOUT) config.MAX_TIMEOUT,
      input.format, input.path, config.WOLFRAM_SCRIPT_PATH⟩ : SpawnArgs) := by
    cases hrun : run ⟨input.code,
        min (input.timeout.getD config.DEFAULT_TIMEOUT) config.MAX_TIMEOUT,
        input.format, input.path, config.WOLFRAM_SCRIPT_PATH⟩ <;>
      simp [hrun] at hsp <;> exact hsp
  rw [hsp2]
  exact ⟨rfl, min_le_right _ _⟩

/-- Witness for C7: a request asking for 86400 s against a configuration
whose maximum is 600 s spawns with timeout `min 86400 600 = 600`. -/
theorem effective_timeout_clamped_witness :
    zodParseExecuteInput ⟨some "1+1", none, some 86400, none⟩
      = Except.ok ⟨"1+1", OutputFormat.text, some 86400, none⟩ ∧
    ∀ sp ∈ (handleExecuteMathematica
        (fun _ => Except.error (ThrownError.executionThrown "boom"))
        ⟨some "1+1", none, some 86400, none⟩
        ⟨"wolframscript", 300, 600⟩).2,
      sp.timeout = min (((some (86400 : Int)).getD 300)) 600 ∧ sp.timeout ≤ 600 :=
  ⟨by rfl,
   effective_timeout_clamped
     (fun _ => Except.error (ThrownError.executionThrown "boom"))
     ⟨some "1+1", none, some 86400, none⟩
     ⟨"wolframscript", 300, 600⟩
     ⟨"1+1", OutputFormat.text, some 86400, none⟩
     (by rfl)⟩

/-- C8: when schema validation fails, the handler returns (it is a total
function, so no exception crosses the dispatch boundary) the structured
envelope of the validation error with `isError` set, and the spawn list is
empty — the engine subprocess is never started. -/
theorem invalid_args_no_spawn
    (run : SpawnArgs → Except ThrownError ExecutionResult)
    (args : RawArgs) (config : EnvConfig) (msg : String)
    (h : zodParseExecuteInput args = Except.error msg) :
    handleExecuteMathematica run args config
      = (⟨ToolPayload.errorJson (formatErrorForMcp (ThrownError.validationThrown msg)),
          true⟩, []) := by
  unfold handleExecuteMathematica
  rw [h]

/-- Witness for C8: a call with no `code` argument fails validation with
`"code: Required"`, returns the structured envelope, and spawns nothing. -/
theorem invalid_args_no_spawn_witness :
    zodParseExecuteInput ⟨none, none, none, none⟩ = Except.error "code: Required" ∧
    handleExecuteMathematica
        (fun _ => Except.error (ThrownError.executionThrown "never"))
        ⟨none, none, none, none⟩ ⟨"wolframscript", 300, 86400⟩
      = (⟨ToolPayload.errorJson
            (formatErrorForMcp (ThrownError.validationThrown "code: Required")), true⟩, []) :=
  ⟨rfl,
   invalid_args_no_spawn
     (fun _ => Except.error (ThrownError.executionThrown "never"))
     ⟨none, none, none, none⟩ ⟨"wolframscript", 300, 86400⟩
     "code: Required" rfl⟩

/-! ## Executor error classification and the timer-win path
(mathematica/executor.ts, `executeWolframScript`) -/

/-- Does the haystack start with the needle? (used to embed JavaScript's
`String.prototype.includes`). -/
def startsWithList (hay needle : List Char) : Bool :=
  hay.take needle.length == needle

/-- Embedding of JavaScript's `String.prototype.includes`: the needle
occurs contiguously somewhere in the haystack. -/
def containsSub (hay needle : List Char) : Bool :=
  match hay with
  | [] => needle.isEmpty
  | _ :: t => startsWithList hay needle || containsSub t needle

/-- `includes` on `String` values. -/
def strIncludes (hay needle : String) : Bool :=
  containsSub hay.toList needle.toList

/-- JavaScript `trim` on `String` values. -/
def jsTrimStr (s : String) : String :=
  String.mk (trimChars s.toList)

/-- Fields of the JavaScript error value inspected by the `catch` block of
`executeWolframScript` (executor.ts lines 138–164); absent fields are
`none` (message is `""` when absent, matching its use under `?.` and
`||`). -/
structure JsError where
  name : String
  message : String
  code : Option String
  stderr : Option String
  stdout : Option String

/-- Embedding of the `catch` block of `executeWolframScript` (executor.ts
lines 138–165): an error with name `'TimeoutError'` or a message containing
`'timed out'` becomes `MathematicaTimeoutError(timeout * 1000)`; `ENOENT`
or a message containing `'not found'` becomes
`WolframScriptNotFoundError(path)`; everything else becomes
`MathematicaExecutionError` with `stderr.trim() || stdout.trim() ||
message || 'Unknown error'`. -/
def classifyCaughtError (timeoutSec : Int) (wolframPath : String)
    (e : JsError) : ThrownError :=
  if e.name == "TimeoutError" || strIncludes e.message "timed out" then
    ThrownError.timeoutThrown (timeoutSec * 1000)
  else if e.code == some "ENOENT" || strIncludes e.message "not found" then
    ThrownError.notFoundThrown wolframPath
  else
    let stderrText := jsTrimStr (e.stderr.getD "")
    let stdoutText := jsTrimStr (e.stdout.getD "")
    let errorMessage :=
      if stderrText ≠ "" then stderrText
      else if stdoutText ≠ "" then stdoutText
      else if e.message ≠ "" then e.message
      else "Unknown error"
    ThrownError.executionThrown errorMessage

/-- The rejection produced by the independent timeout timer (executor.ts
line 103): `reject(new Error('timeout'))` — a plain `Error`, whose `name`
is `'Error'` and whose message is `'timeout'`, with no `code`, `stderr` or
`stdout`. -/
def raceTimerRejection : JsError :=
  ⟨"Error", "timeout", none, none, none⟩

/-- C1 (code evaluated at the failing input): when the independent timer
wins the race, its rejection `Error('timeout')` is classified by the
`catch` block as `MathematicaExecutionError("timeout")` — for every
timeout value and engine path — and never as `MathematicaTimeoutError`,
because the classifier only recognises the name `'TimeoutError'` or a
message containing `'timed out'`, neither of which the timer's own
rejection carries.  This contradicts the claim (and the function's
documented `@throws` behaviour). -/
theorem timer_win_misclassified (timeoutSec : Int) (wolframPath : String) :
    classifyCaughtError timeoutSec wolframPath raceTimerRejection
      = ThrownError.executionThrown "timeout" ∧
    (∀ ms : Int, classifyCaughtError timeoutSec wolframPath raceTimerRejection
      ≠ ThrownError.timeoutThrown ms) := by
  have h : classifyCaughtError timeoutSec wolframPath raceTimerRejection
      = ThrownError.executionThrown "timeout" := by
    rfl
  refine ⟨h, fun ms hms => ?_⟩
  rw [h] at hms
  exact ThrownError.noConfusion hms

/-- Witness for C1 at the concrete timeout 1 s and the default engine
path. -/
theorem timer_win_misclassified_witness :
    classifyCaughtError 1 "wolframscript" raceTimerRejection
      = ThrownError.executionThrown "timeout" ∧
    classifyCaughtError 1 "wolframscript" raceTimerRejection
      ≠ ThrownError.timeoutThrown (1 * 1000) :=
  ⟨(timer_win_misclassified 1 "wolframscript").1,
   (timer_win_misclassified 1 "wolframscript").2 (1 * 1000)⟩

/-- Effects performed by `executeWolframScript`, as an explicit alphabet.
`killProcess` is included so that its absence from a trace is expressible;
the source contains no kill call anywhere in the function. -/
inductive ExecAction where
  | spawnProcess
  | setWorkingDir (dir : String)
  | scheduleTimer (ms : Int)
  | awaitRace
  | killProcess
  | throwException (e : ThrownError)
deriving DecidableEq, Repr

/-- Control-flow embedding of the effect sequence of
`executeWolframScript` on the path where the race timer wins (executor.ts
lines 93–106 followed by the `catch` block, lines 138–165): the subprocess
is spawned, its working directory optionally set, the timer scheduled, the
race awaited (the timer rejecting first), and the classified error thrown.
No other effectful step occurs on this path in the source. -/
def executorTimerWinTrace (timeoutSec : Int) (wolframPath : String)
    (path : Option String) : List ExecAction :=
  [ExecAction.spawnProcess]
  ++ (match path with
      | some d => [ExecAction.setWorkingDir d]
      | none => [])
  ++ [ExecAction.scheduleTimer (timeoutSec * 1000),
      ExecAction.awaitRace,
      ExecAction.throwException
        (classifyCaughtError timeoutSec wolframPath raceTimerRejection)]

/-- C2 (refuted on the code): on the timer-win path `executeWolframScript`
never performs a kill of the spawned subprocess — the race merely abandons
the subprocess promise before the classified error is thrown — for every
timeout, engine path and working directory. -/
theorem timeout_path_never_kills (timeoutSec : Int) (wolframPath : String)
    (path : Option String) :
    ExecAction.killProcess ∉ executorTimerWinTrace timeoutSec wolframPath path := by
  cases path <;> simp [executorTimerWinTrace]

/-- Witness for C2 at the concrete timeout 1 s, the default engine path
and no working directory. -/
theorem timeout_path_never_kills_witness :
    ExecAction.killProcess ∉ executorTimerWinTrace 1 "wolframscript" none :=
  timeout_path_never_kills 1 "wolframscript" none

end MmaMcp
